import Mathlib

/-!
Shallow embedding of the AWS Firehose ingestion handler
(`component/loki/source/aws_firehose/internal/handler.go`).

Go strings that carry opaque byte payloads (wire records after base64
decoding, log lines) are modelled as `List Nat` with each byte `< 256`;
strings used as identifiers, label names and label values are modelled
as Lean `String`.  External library collaborators (gzip decompression,
JSON unmarshalling of the CloudWatch envelope, the relabeling engine)
are modelled as opaque function parameters carried by the `Handler`
structure, mirroring how the Go code treats them as injected
collaborators.
-/

namespace Firehose

/-- Alphabet of Go `encoding/base64.StdEncoding` (RFC 4648 standard). -/
def base64Alphabet : List Char :=
  "ABCDEFGHIJKLMNOPQRSTUVWXYZabcdefghijklmnopqrstuvwxyz0123456789+/".toList

/-- Character of the standard base64 alphabet at index `i`. -/
def b64Char (i : Nat) : Char := base64Alphabet.getD i 'A'

/-- Index search in the alphabet, carrying the position accumulator. -/
def b64IndexAux : List Char → Char → Nat → Option Nat
  | [], _, _ => none
  | a :: as, c, i => if a = c then some i else b64IndexAux as c (i + 1)

/-- Index of a character in the base64 alphabet; `none` for characters
outside the alphabet (Go reports `CorruptInputError` for those). -/
def b64Index (c : Char) : Option Nat := b64IndexAux base64Alphabet c 0

/-- Encoding loop of Go `base64.StdEncoding.EncodeToString`: bytes are
consumed in groups of three, emitting four alphabet characters; a final
group of one or two bytes is padded with `=`. -/
def b64EncodeGroups : List Nat → List Char
  | [] => []
  | [b0] =>
      [b64Char (b0 / 4), b64Char (b0 % 4 * 16), '=', '=']
  | [b0, b1] =>
      [b64Char (b0 / 4), b64Char (b0 % 4 * 16 + b1 / 16), b64Char (b1 % 16 * 4), '=']
  | b0 :: b1 :: b2 :: rest =>
      b64Char (b0 / 4) :: b64Char (b0 % 4 * 16 + b1 / 16) ::
      b64Char (b1 % 16 * 4 + b2 / 64) :: b64Char (b2 % 64) :: b64EncodeGroups rest

/-- Decoding loop of Go `base64.StdEncoding.DecodeString`: characters
are consumed in quanta of four; `=` padding may appear only in the last
quantum, at its third and fourth (or only its fourth) position; any
character outside the alphabet is an error (`none`). -/
def b64DecodeGroups : List Char → Option (List Nat)
  | [] => some []
  | c0 :: c1 :: c2 :: c3 :: rest =>
    match b64Index c0, b64Index c1 with
    | some i0, some i1 =>
      if c2 = '=' then
        if c3 = '=' ∧ rest = [] then some [i0 * 4 + i1 / 16] else none
      else
        match b64Index c2 with
        | some i2 =>
          if c3 = '=' then
            if rest = [] then some [i0 * 4 + i1 / 16, i1 % 16 * 16 + i2 / 4] else none
          else
            match b64Index c3, b64DecodeGroups rest with
            | some i3, some tail =>
                some ((i0 * 4 + i1 / 16) :: (i1 % 16 * 16 + i2 / 4) :: (i2 % 4 * 64 + i3) :: tail)
            | _, _ => none
        | none => none
    | _, _ => none
  | _ => none

/-- Go `base64.StdEncoding.EncodeToString` over a byte slice. -/
def base64Encode (bytes : List Nat) : String := String.mk (b64EncodeGroups bytes)

/-- Go `base64.StdEncoding.DecodeString`; `none` models the non-nil
error return. -/
def base64Decode (s : String) : Option (List Nat) := b64DecodeGroups s.data

/-- Gzip header constants from `handler.go`. -/
def gzipID1 : Nat := 0x1f

/-- Second gzip magic byte from `handler.go`. -/
def gzipID2 : Nat := 0x8b

/-- Gzip DEFLATE compression-method byte from `handler.go`. -/
def gzipDeflate : Nat := 8

/-- Record origin tag (`RecordOrigin` in `handler.go`). -/
inductive RecordOrigin
  | cloudwatchLogs
  | directPut
  | unknown
deriving DecidableEq, Repr

/-- Result of `decodeRecord`.  `panicked` models a Go runtime panic
(index out of range) escaping the function; `err o msg` models the
`(nil-or-partial, origin, non-nil error)` return. -/
inductive DecodeResult
  | panicked
  | ok (bytes : List Nat) (origin : RecordOrigin)
  | err (origin : RecordOrigin) (msg : String)
deriving DecidableEq, Repr

/-- Go expression `decodedRec[0] == gzipID1 && decodedRec[1] == gzipID2
&& decodedRec[2] == gzipDeflate` from `decodeRecord`.  `&&` evaluates
left to right and short-circuits; each index panics (`none`) when it is
out of range of the decoded slice. -/
def gzipHeaderMatch (b : List Nat) : Option Bool :=
  match b.get? 0 with
  | none => none
  | some b0 =>
    if b0 = gzipID1 then
      match b.get? 1 with
      | none => none
      | some b1 =>
        if b1 = gzipID2 then
          match b.get? 2 with
          | none => none
          | some b2 => some (b2 = gzipDeflate)
        else some false
    else some false

/-- Collaborator type for Go `gzip.NewReader` and the reads `io.Copy`
performs on it: on success, the sequence of decompressed chunks the
successive reads deliver (their concatenation is the full decompressed
payload); `Except.error` covers both the reader-creation failure and a
failing read while draining the stream. -/
def GzipDecode : Type := List Nat → Except String (List (List Nat))

/-- Size of the buffer allocated by Go `bufio.NewWriter`. -/
def bufioWriterSize : Nat := 4096

/-- Go `bufio.Writer.Write` over an underlying `bytes.Buffer`, on the
state `(flushed, buffered)`: while the chunk exceeds the available
buffer space, either write it through directly (buffer empty) or fill
the buffer and flush it; the remainder is copied into the buffer.  The
underlying `bytes.Buffer` never errors or short-writes. -/
def bufioWrite (flushed buf p : List Nat) : List Nat × List Nat :=
  if p.length ≤ bufioWriterSize - buf.length then
    (flushed, buf ++ p)
  else if buf.length = 0 then
    (flushed ++ p, [])
  else
    let avail := bufioWriterSize - buf.length
    let flushed2 := flushed ++ buf ++ p.take avail
    let p2 := p.drop avail
    if p2.length ≤ bufioWriterSize then (flushed2, p2)
    else (flushed2 ++ p2, [])

/-- The `io.Copy(bufio.NewWriter(&b), gzipReader)` loop of
`decodeRecord`: each read chunk is written to the `bufio.Writer`.  The
final state is `(flushed, buffered)`; `b.Bytes()` sees only the flushed
part — the tail still buffered when the copy ends is lost because
`Flush` is never called. -/
def bufioCopy : List Nat × List Nat → List (List Nat) → List Nat × List Nat
  | st, [] => st
  | (flushed, buf), c :: cs => bufioCopy (bufioWrite flushed buf c) cs

/-- Embedding of `(*Handler).decodeRecord`: base64-decode the wire
record; on failure return origin `unknown` with an error.  Then run the
inlined gzip header check on the first three bytes (panicking when the
slice is shorter, exactly as the Go indexing does); a non-match returns
the decoded bytes with origin `direct-put`; a match drains the gzip
collaborator through the never-flushed `bufio.Writer`, so only the
flushed part of the decompressed payload is returned; a gzip failure
keeps origin `cloudwatch-logs` for diagnostics. -/
def decodeRecord (gzipDecode : GzipDecode) (rec : String) : DecodeResult :=
  match base64Decode rec with
  | none => .err .unknown "error base64-decoding record"
  | some decodedRec =>
    match gzipHeaderMatch decodedRec with
    | none => .panicked
    | some false => .ok decodedRec .directPut
    | some true =>
      match gzipDecode decodedRec with
      | .error e => .err .cloudwatchLogs e
      | .ok chunks => .ok (bufioCopy ([], []) chunks).1 .cloudwatchLogs

/-- One label: a name/value pair (`labels.Label` from the Prometheus
model, as used by `handler.go`). -/
structure Label where
  name : String
  value : String
deriving DecidableEq, Repr

/-- Net effect of Prometheus `labels.Builder.Set` on the labels a
builder will produce: an empty value deletes the label, otherwise the
label overwrites any existing label of the same name. -/
def builderSet (b : List Label) (n v : String) : List Label :=
  if v = "" then b.filter (fun l => l.name ≠ n)
  else b.filter (fun l => l.name ≠ n) ++ [⟨n, v⟩]

/-- Lexicographic comparison of character lists by code point; on
valid Unicode this coincides with Go's byte-wise string comparison. -/
def charListLt : List Char → List Char → Bool
  | _, [] => false
  | [], _ :: _ => true
  | a :: as, b :: bs =>
    if a.toNat < b.toNat then true
    else if b.toNat < a.toNat then false
    else charListLt as bs

/-- Name order used to sort a builder's labels. -/
def labelNameLt (x y : Label) : Bool := charListLt x.name.data y.name.data

/-- Prometheus `labels.Builder.Labels`: the accumulated labels, sorted
by name. -/
def builderLabels (b : List Label) : List Label :=
  List.insertionSort (fun x y : Label => labelNameLt x y = true) b

/-- Whether a label name starts with the reserved internal prefix
(`strings.HasPrefix(name, "__")` in `postProcessLabels`). -/
def hasInternalName (s : String) : Bool :=
  match s.data with
  | '_' :: '_' :: _ => true
  | _ => false

/-- Modelled from the spec: `lokiClient.ReservedLabelTenantID`, the
reserved tenant-id label name, lives in the loki client package of this
repository which is not under `src/`; the spec describes it as the one
internal-prefixed key exempted from stripping, and the loki wire
protocol names it `__tenant_id__`. -/
def ReservedLabelTenantID : String := "__tenant_id__"

/-- Per-character test of Prometheus `model.LabelName.IsValid`:
letters, underscore, and (except at the first position) digits.  Go
ranges over runes, so the comparisons act on code points. -/
def labelNameCharOK (first : Bool) (c : Char) : Bool :=
  (97 ≤ c.toNat && c.toNat ≤ 122) || (65 ≤ c.toNat && c.toNat ≤ 90) ||
    c.toNat = 95 || (48 ≤ c.toNat && c.toNat ≤ 57 && !first)

/-- Character loop of `model.LabelName.IsValid`. -/
def labelNameCharsOK : Bool → List Char → Bool
  | _, [] => true
  | first, c :: cs => labelNameCharOK first c && labelNameCharsOK false cs

/-- Prometheus `model.LabelName.IsValid`: non-empty and every character
passes the per-position check. -/
def labelNameIsValid (s : String) : Bool :=
  !s.data.isEmpty && labelNameCharsOK true s.data

/-- Prometheus `model.LabelValue.IsValid` checks `utf8.ValidString`;
a Lean `String` is well-formed Unicode by construction, so the check
always passes in this embedding. -/
def labelValueIsValid (_ : String) : Bool := true

/-- Insertion into a Go `model.LabelSet` map: assignment overwrites the
entry with the same key, otherwise appends. -/
def labelSetInsert (m : List Label) (n v : String) : List Label :=
  if m.any (fun l => l.name = n) then
    m.map (fun l => if l.name = n then ⟨n, v⟩ else l)
  else m ++ [⟨n, v⟩]

/-- CloudWatch log event (`CloudwatchLogEvent` in `handler.go`).  The
`message` carries opaque log-line bytes. -/
structure CloudwatchLogEvent where
  id : String
  timestamp : Int
  message : List Nat
deriving DecidableEq, Repr

/-- CloudWatch envelope (`CloudwatchLogsRecord` in `handler.go`). -/
structure CloudwatchLogsRecord where
  owner : String
  logGroup : String
  logStream : String
  subscriptionFilters : List String
  messageType : String
  logEvents : List CloudwatchLogEvent
deriving DecidableEq, Repr

/-- One record of the batch envelope (`FirehoseRecord`). -/
structure FirehoseRecord where
  data : String
deriving DecidableEq, Repr

/-- Batch envelope (`FirehoseRequest`). -/
structure FirehoseRequest where
  requestId : String
  timestamp : Int
  records : List FirehoseRecord
deriving DecidableEq, Repr

/-- The handler with its injected collaborators: the relabeling engine
(`relabel.Process` over the configured rules, opaque), the gzip
decompressor, and JSON unmarshalling of the CloudWatch envelope
(`json.Unmarshal`, opaque). -/
structure Handler where
  hasRelabelRules : Bool
  relabelProcess : List Label → List Label
  gzipDecode : GzipDecode
  cwUnmarshal : List Nat → Except String CloudwatchLogsRecord

/-- Embedding of `(*Handler).postProcessLabels`: apply the relabel rules
when any are configured, then drop every label whose name has the
internal prefix and is not the reserved tenant-id label, and every
label whose name or value is not Prometheus-valid; survivors are put
into a `model.LabelSet` map. -/
def postProcessLabels (h : Handler) (lbs : List Label) : List Label :=
  let lbs := if h.hasRelabelRules then h.relabelProcess lbs else lbs
  lbs.foldl
    (fun entryLabels lbl =>
      if hasInternalName lbl.name ∧ lbl.name ≠ ReservedLabelTenantID then entryLabels
      else if ¬ (labelNameIsValid lbl.name ∧ labelValueIsValid lbl.value) then entryLabels
      else labelSetInsert entryLabels lbl.name lbl.value)
    []

/-- One outbound entry handed to the downstream sink (`loki.Entry`):
post-processed labels, the ingestion-time stamp, and the line bytes. -/
structure LokiEntry where
  labels : List Label
  timestamp : Nat
  line : List Nat
deriving DecidableEq, Repr

/-- Embedding of `(*Handler).handleCloudwatchLogsRecord`: unmarshal the
envelope, seed a fresh builder from the common labels, set the five
origin-specific internal labels, and emit one entry per log event with
the event message as the line. -/
def handleCloudwatchLogsRecord (h : Handler) (data : List Nat) (commonLabels : List Label)
    (now : Nat) : Except String (List LokiEntry) :=
  match h.cwUnmarshal data with
  | .error e => .error e
  | .ok cwRecord =>
    let b := commonLabels
    let b := builderSet b "__aws_owner" cwRecord.owner
    let b := builderSet b "__aws_cw_log_group" cwRecord.logGroup
    let b := builderSet b "__aws_cw_log_stream" cwRecord.logStream
    let b := builderSet b "__aws_cw_matched_filters" (String.intercalate "," cwRecord.subscriptionFilters)
    let b := builderSet b "__aws_cw_msg_type" cwRecord.messageType
    .ok (cwRecord.logEvents.map (fun event =>
      { labels := postProcessLabels h (builderLabels b)
        timestamp := now
        line := event.message }))

/-- HTTP response as observed by the Firehose caller. -/
structure HttpResponse where
  status : Nat
  contentType : String
  body : String
deriving DecidableEq, Repr

/-- Success body template of `handler.go`
(`\x7b"requestId": "%s", "timestamp": %d\x7d`). -/
def successResponseBody (requestId : String) (timestamp : Nat) : String :=
  "\x7b\"requestId\": \"" ++ requestId ++ "\", \"timestamp\": " ++ toString timestamp ++ "\x7d"

/-- Error body template of `handler.go`
(`\x7b"requestId": "%s", "timestamp": %d, "errorMessage": "%s"\x7d`). -/
def errorResponseBody (requestId : String) (timestamp : Nat) (errMsg : String) : String :=
  "\x7b\"requestId\": \"" ++ requestId ++ "\", \"timestamp\": " ++ toString timestamp ++
    ", \"errorMessage\": \"" ++ errMsg ++ "\"\x7d"

/-- Embedding of `sendAPIResponse`: JSON content type, the given
status, and the success or error template depending on whether the
error message is empty. -/
def sendAPIResponse (firehoseID errMsg : String) (status : Nat) (now : Nat) : HttpResponse :=
  { status := status
    contentType := "application/json"
    body := if errMsg ≠ "" then errorResponseBody firehoseID now errMsg
            else successResponseBody firehoseID now }

/-- Go `http.Error`: plain-text content type, message plus newline. -/
def goHttpError (msg : String) (status : Nat) : HttpResponse :=
  { status := status
    contentType := "text/plain; charset=utf-8"
    body := msg ++ "\n" }

/-- Inbound request as seen by `ServeHTTP`.  The transport-level body
is abstracted by the outcome of the two stdlib operations applied to
it: `gzipBody` is the result of `gzip.NewReader` on the raw body (only
consulted when the `Content-Encoding` header says gzip) and `body` is
the result of JSON-decoding the (possibly decompressed) body into a
`FirehoseRequest`. -/
structure HttpRequest where
  contentEncoding : String
  gzipBody : Except String Unit
  body : Except String FirehoseRequest
  requestIdHeader : String
  sourceArnHeader : String
  tenantHeader : String

/-- Outcome of one request: the entries sent to the downstream sink, in
order, and the response written, `none` when the handler panicked
before writing one. -/
structure ServeResult where
  sent : List LokiEntry
  response : Option HttpResponse
deriving DecidableEq, Repr

/-- Common-label construction of `ServeHTTP`: a fresh builder receives
the firehose request-id and source-ARN headers under internal-prefixed
names, and the tenant header under the reserved tenant-id name when it
is non-empty. -/
def commonLabelsOf (req : HttpRequest) : List Label :=
  let commonLabels := builderSet [] "__aws_firehose_request_id" req.requestIdHeader
  let commonLabels := builderSet commonLabels "__aws_firehose_source_arn" req.sourceArnHeader
  if req.tenantHeader ≠ "" then builderSet commonLabels ReservedLabelTenantID req.tenantHeader
  else commonLabels

/-- Record loop of `ServeHTTP`: decode each record in order; a decode
error aborts the batch with a 400 response; a panic aborts with no
response; direct-put records are sent immediately with the decoded
bytes as the line; cloudwatch records go through the envelope handler,
whose error also aborts with a 400; after the last record a 200 success
response is written. -/
def processRecords (h : Handler) (requestId : String) (commonLabels : List Label)
    (now : Nat) : List FirehoseRecord → ServeResult
  | [] => { sent := [], response := some (sendAPIResponse requestId "" 200 now) }
  | rec :: rest =>
    match decodeRecord h.gzipDecode rec.data with
    | .panicked => { sent := [], response := none }
    | .err _ _ =>
        { sent := []
          response := some (sendAPIResponse requestId "failed to decode record" 400 now) }
    | .ok decodedRecord recordType =>
      match recordType with
      | .directPut =>
        let entry : LokiEntry :=
          { labels := postProcessLabels h (builderLabels commonLabels)
            timestamp := now
            line := decodedRecord }
        let r := processRecords h requestId commonLabels now rest
        { sent := entry :: r.sent, response := r.response }
      | .cloudwatchLogs =>
        match handleCloudwatchLogsRecord h decodedRecord (builderLabels commonLabels) now with
        | .error _ =>
            { sent := []
              response := some (sendAPIResponse requestId "failed to handle cloudwatch record" 400 now) }
        | .ok entries =>
            let r := processRecords h requestId commonLabels now rest
            { sent := entries ++ r.sent, response := r.response }
      | .unknown => processRecords h requestId commonLabels now rest

/-- Stage of `ServeHTTP` after the optional gzip unwrapping: JSON
decoding of the batch envelope (failure answered by `http.Error`),
common-label construction, and the record loop. -/
def serveAfterGzip (h : Handler) (req : HttpRequest) (now : Nat) : ServeResult :=
  match req.body with
  | .error e => { sent := [], response := some (goHttpError e 400) }
  | .ok firehoseReq =>
      processRecords h firehoseReq.requestId (commonLabelsOf req) now firehoseReq.records

/-- Embedding of `(*Handler).ServeHTTP`: when the `Content-Encoding`
header says gzip, a failing `gzip.NewReader` is answered by
`http.Error` before anything else; otherwise processing proceeds on the
(possibly decompressed) body. -/
def ServeHTTP (h : Handler) (req : HttpRequest) (now : Nat) : ServeResult :=
  if req.contentEncoding = "gzip" then
    match req.gzipBody with
    | .error e => { sent := [], response := some (goHttpError e 400) }
    | .ok _ => serveAfterGzip h req now
  else serveAfterGzip h req now

/-- Decidable test that one record would process without aborting the
batch: its decode succeeds (no error, no panic) and, for a cloudwatch
record, the envelope handler succeeds on the decoded bytes. -/
def recordSendsOK (h : Handler) (commonLabels : List Label) (now : Nat)
    (r : FirehoseRecord) : Bool :=
  match decodeRecord h.gzipDecode r.data with
  | .ok bs origin =>
    match origin with
    | .cloudwatchLogs =>
      match handleCloudwatchLogsRecord h bs (builderLabels commonLabels) now with
      | .ok _ => true
      | .error _ => false
    | _ => true
  | _ => false

/-! Concrete fixtures used by witnesses and counterexamples. -/

/-- Handler with no relabel rules, an identity gzip collaborator and a
failing CloudWatch unmarshaller. -/
def plainHandler : Handler :=
  ⟨false, fun l => l, fun l => Except.ok [l], fun _ => Except.error "parse error"⟩

/-- CloudWatch data envelope with two log events. -/
def cwRecA : CloudwatchLogsRecord :=
  ⟨"owner1", "group1", "stream1", ["f1"], "DATA_MESSAGE", [⟨"e1", 5, [104]⟩, ⟨"e2", 6, [105]⟩]⟩

/-- Handler whose CloudWatch unmarshaller always yields `cwRecA`. -/
def cwHandlerA : Handler := ⟨false, fun l => l, fun l => Except.ok [l], fun _ => Except.ok cwRecA⟩

/-- CONTROL_MESSAGE envelope carrying one log event, as AWS health
checks do. -/
def ctrlRec : CloudwatchLogsRecord :=
  ⟨"owner1", "group1", "stream1", [], "CONTROL_MESSAGE", [⟨"e1", 5, [104]⟩]⟩

/-- Handler whose CloudWatch unmarshaller always yields `ctrlRec`. -/
def ctrlHandler : Handler := ⟨false, fun l => l, fun l => Except.ok [l], fun _ => Except.ok ctrlRec⟩

/-- CONTROL_MESSAGE envelope with no log events. -/
def ctrlRecEmpty : CloudwatchLogsRecord :=
  ⟨"owner1", "group1", "stream1", [], "CONTROL_MESSAGE", []⟩

/-- Handler whose CloudWatch unmarshaller always yields `ctrlRecEmpty`. -/
def ctrlHandlerEmpty : Handler :=
  ⟨false, fun l => l, fun l => Except.ok [l], fun _ => Except.ok ctrlRecEmpty⟩

/-- Request whose batch envelope decodes with zero records. -/
def emptyBatchReq : HttpRequest :=
  ⟨"", Except.ok (), Except.ok ⟨"req-42", 99, []⟩, "r1", "a1", ""⟩

/-- Request whose first record base64-decodes to zero bytes (tripping
the magic-check panic) and whose second record is invalid base64. -/
def panicThenBadReq : HttpRequest :=
  ⟨"", Except.ok (), Except.ok ⟨"req-1", 0, [⟨""⟩, ⟨"!"⟩]⟩, "r1", "a1", ""⟩

/-- Request whose body fails to JSON-decode. -/
def badJsonReq : HttpRequest :=
  ⟨"", Except.ok (), Except.error "invalid character", "r1", "a1", ""⟩

/-- Request carrying one direct-put record: the base64 encoding of the
text `hello world`. -/
def helloReq : HttpRequest :=
  ⟨"", Except.ok (), Except.ok ⟨"req-6", 0, [⟨"aGVsbG8gd29ybGQ="⟩]⟩, "r1", "a1", ""⟩

/-! Theorems. -/

theorem b64Index_b64Char : ∀ i < 64, b64Index (b64Char i) = some i := by decide

theorem b64Char_ne_pad : ∀ i < 64, b64Char i ≠ '=' := by decide

theorem b64_roundtrip : ∀ (bytes : List Nat), (∀ x ∈ bytes, x < 256) →
    b64DecodeGroups (b64EncodeGroups bytes) = some bytes
  | [], _ => rfl
  | [b0], h => by
      have hb0 : b0 < 256 := h b0 (by simp)
      simp only [b64EncodeGroups, b64DecodeGroups,
        b64Index_b64Char (b0 / 4) (by omega),
        b64Index_b64Char (b0 % 4 * 16) (by omega)]
      simp
      omega
  | [b0, b1], h => by
      have hb0 : b0 < 256 := h b0 (by simp)
      have hb1 : b1 < 256 := h b1 (by simp)
      have hne : b64Char (b1 % 16 * 4) ≠ '=' := b64Char_ne_pad _ (by omega)
      simp only [b64EncodeGroups, b64DecodeGroups,
        b64Index_b64Char (b0 / 4) (by omega),
        b64Index_b64Char (b0 % 4 * 16 + b1 / 16) (by omega),
        b64Index_b64Char (b1 % 16 * 4) (by omega)]
      simp [hne]
      omega
  | b0 :: b1 :: b2 :: rest, h => by
      have hb0 : b0 < 256 := h b0 (by simp)
      have hb1 : b1 < 256 := h b1 (by simp)
      have hb2 : b2 < 256 := h b2 (by simp)
      have ih := b64_roundtrip rest (fun x hx => h x (by simp [hx]))
      have hne2 : b64Char (b1 % 16 * 4 + b2 / 64) ≠ '=' := b64Char_ne_pad _ (by omega)
      have hne3 : b64Char (b2 % 64) ≠ '=' := b64Char_ne_pad _ (by omega)
      simp only [b64EncodeGroups, b64DecodeGroups,
        b64Index_b64Char (b0 / 4) (by omega),
        b64Index_b64Char (b0 % 4 * 16 + b1 / 16) (by omega),
        b64Index_b64Char (b1 % 16 * 4 + b2 / 64) (by omega),
        b64Index_b64Char (b2 % 64) (by omega)]
      simp [hne2, hne3, ih]
      omega

theorem base64_decode_encode (bytes : List Nat) (h : ∀ x ∈ bytes, x < 256) :
    base64Decode (base64Encode bytes) = some bytes :=
  b64_roundtrip bytes h

/-- C1: the spec requires a record whose base64 decoding yields fewer
than 3 bytes to be returned as-is with origin direct-put, with a
bounds-check before the magic-byte comparison.  The code has no such
bounds-check: a record decoding to zero bytes (the empty wire record)
panics at `decodedRec[0]`, and a record decoding to the two bytes
`1f 8b` passes the first two comparisons and panics at `decodedRec[2]`;
only short records whose bytes break the `&&` chain early (such as the
single byte `00`) are returned as direct-put. -/
theorem decodeRecord_short_record_panics :
    decodeRecord (fun l => Except.ok [l.drop 3]) "" = DecodeResult.panicked ∧
    decodeRecord (fun l => Except.ok [l.drop 3]) "H4s=" = DecodeResult.panicked ∧
    decodeRecord (fun l => Except.ok [l.drop 3]) "AA==" =
      DecodeResult.ok [0] RecordOrigin.directPut := by
  decide

theorem bufioCopy_small : ∀ (chunks : List (List Nat)) (flushed buf : List Nat),
    buf.length + (chunks.flatten).length ≤ bufioWriterSize →
    bufioCopy (flushed, buf) chunks = (flushed, buf ++ chunks.flatten)
  | [], flushed, buf, _ => by simp [bufioCopy]
  | c :: cs, flushed, buf, h => by
      have hc : c.length ≤ bufioWriterSize - buf.length := by
        simp [List.flatten_cons] at h; omega
      have ih := bufioCopy_small cs flushed (buf ++ c)
        (by simp [List.flatten_cons] at h ⊢; omega)
      unfold bufioCopy bufioWrite
      rw [if_pos hc, ih]
      simp [List.flatten_cons]

theorem decodeRecord_small_gzip_empty (gzipInflate : GzipDecode) (compressed : List Nat)
    (chunks : List (List Nat))
    (hbytes : ∀ x ∈ compressed, x < 256)
    (hmagic : ∃ rest, compressed = gzipID1 :: gzipID2 :: gzipDeflate :: rest)
    (hinf : gzipInflate compressed = Except.ok chunks)
    (hsmall : (chunks.flatten).length ≤ bufioWriterSize) :
    decodeRecord gzipInflate (base64Encode compressed) =
      DecodeResult.ok [] RecordOrigin.cloudwatchLogs := by
  obtain ⟨rest, hrest⟩ := hmagic
  have h1 : base64Decode (base64Encode compressed) = some compressed :=
    base64_decode_encode compressed hbytes
  have h2 : gzipHeaderMatch compressed = some true := by
    subst hrest; simp [gzipHeaderMatch, gzipID1, gzipID2, gzipDeflate]
  have h3 := bufioCopy_small chunks [] [] (by simpa using hsmall)
  simp [decodeRecord, h1, h2, hinf, h3]

/-- C2: the round-trip claim fails on the code.  `decodeRecord` drains
the gzip reader with `io.Copy` into a `bufio.Writer` that is never
flushed, so the decompressed bytes still buffered when the copy ends are
lost: every payload decompressing to at most 4096 bytes (the bufio
buffer size) comes back empty, with a nil error.  Concretely, a record
carrying a gzip stream that decompresses to the two bytes of `hi`
(delivered in one read) decodes to ok with EMPTY bytes and origin
cloudwatch-logs, not to `hi` as the claim requires; the lost bytes sit
in the final unflushed buffer. -/
theorem decodeRecord_gzip_drops_small_payloads :
    decodeRecord (fun l => Except.ok [l.drop 3]) (base64Encode [31, 139, 8, 104, 105]) =
      DecodeResult.ok [] RecordOrigin.cloudwatchLogs ∧
    (bufioCopy ([], []) [[104, 105]]).2 = [104, 105] := by
  decide

theorem labelSetInsert_mem (m : List Label) (n v : String) (l : Label)
    (hl : l ∈ labelSetInsert m n v) : l ∈ m ∨ l = ⟨n, v⟩ := by
  unfold labelSetInsert at hl
  split at hl
  · rw [List.mem_map] at hl
    obtain ⟨a, ha, hfa⟩ := hl
    by_cases hn : a.name = n
    · simp only [hn, if_pos rfl] at hfa
      exact Or.inr hfa.symm
    · simp only [if_neg hn] at hfa
      exact Or.inl (hfa ▸ ha)
  · rcases List.mem_append.mp hl with hm | hm
    · exact Or.inl hm
    · simp at hm
      exact Or.inr hm

theorem postProcessLabels_foldl_mem :
    ∀ (lbs acc : List Label),
      (∀ l ∈ acc,
        (hasInternalName l.name = false ∨ l.name = ReservedLabelTenantID) ∧
        labelNameIsValid l.name = true ∧ labelValueIsValid l.value = true) →
      ∀ l ∈ lbs.foldl
        (fun entryLabels lbl =>
          if hasInternalName lbl.name ∧ lbl.name ≠ ReservedLabelTenantID then entryLabels
          else if ¬ (labelNameIsValid lbl.name ∧ labelValueIsValid lbl.value) then entryLabels
          else labelSetInsert entryLabels lbl.name lbl.value) acc,
        (hasInternalName l.name = false ∨ l.name = ReservedLabelTenantID) ∧
        labelNameIsValid l.name = true ∧ labelValueIsValid l.value = true
  | [], _, hacc => hacc
  | lbl :: lbs, acc, hacc => by
      simp only [List.foldl_cons]
      apply postProcessLabels_foldl_mem lbs
      split
      · exact hacc
      · split
        · exact hacc
        · rename_i hkeep hvalid
          intro l hl
          rcases labelSetInsert_mem _ _ _ l hl with hm | hm
          · exact hacc l hm
          · subst hm
            rw [not_and_or] at hkeep
            rw [not_not] at hvalid
            refine ⟨?_, hvalid⟩
            rcases hkeep with hk | hk
            · exact Or.inl (by simpa using hk)
            · exact Or.inr (by simpa using hk)

/-- C7: after post-processing, every surviving label either does not
start with the reserved internal prefix or is exactly the tenant-id
label, and its name and value pass the Prometheus validity checks —
whatever label set (including any relabel output) went in. -/
theorem postProcessLabels_sound (h : Handler) (lbs : List Label) :
    ∀ l ∈ postProcessLabels h lbs,
      (hasInternalName l.name = false ∨ l.name = ReservedLabelTenantID) ∧
      labelNameIsValid l.name = true ∧ labelValueIsValid l.value = true := by
  unfold postProcessLabels
  apply postProcessLabels_foldl_mem
  intro l hl
  simp at hl

/-- Witness for C7 at a concrete surviving label. -/
theorem postProcessLabels_sound_witness :
    (⟨"app", "x"⟩ : Label) ∈
        postProcessLabels plainHandler
          [⟨"__aws_firehose_request_id", "r1"⟩, ⟨"app", "x"⟩, ⟨"9bad", "y"⟩] ∧
      ((hasInternalName "app" = false ∨ "app" = ReservedLabelTenantID) ∧
        labelNameIsValid "app" = true ∧ labelValueIsValid "x" = true) :=
  ⟨by decide,
    postProcessLabels_sound plainHandler
      [⟨"__aws_firehose_request_id", "r1"⟩, ⟨"app", "x"⟩, ⟨"9bad", "y"⟩]
      ⟨"app", "x"⟩ (by decide)⟩

/-- C5 counterexample: a successfully parsed envelope with
`messageType = "CONTROL_MESSAGE"` that carries one log event (as AWS
reachability checks do) produces one outbound entry, not zero — the
code never consults `messageType`. -/
theorem handleCW_control_message_counterexample :
    ctrlRec.messageType = "CONTROL_MESSAGE" ∧
    handleCloudwatchLogsRecord ctrlHandler [0] [] 0 =
      Except.ok [{ labels := [], timestamp := 0, line := [104] }] :=
  ⟨rfl, rfl⟩

/-- C5 (amended): a successfully parsed CONTROL_MESSAGE envelope whose
`logEvents` list is empty produces zero outbound entries and no
error. -/
theorem handleCW_control_message_empty_events (h : Handler) (data : List Nat)
    (commonLabels : List Label) (now : Nat) (rec : CloudwatchLogsRecord)
    (hparse : h.cwUnmarshal data = Except.ok rec)
    (hctrl : rec.messageType = "CONTROL_MESSAGE")
    (hempty : rec.logEvents = []) :
    handleCloudwatchLogsRecord h data commonLabels now = Except.ok [] := by
  unfold handleCloudwatchLogsRecord
  rw [hparse]
  simp [hempty]

/-- Witness for the amended C5 at a concrete empty CONTROL_MESSAGE
envelope. -/
theorem handleCW_control_message_empty_events_witness :
    ctrlHandlerEmpty.cwUnmarshal [0] = Except.ok ctrlRecEmpty ∧
      ctrlRecEmpty.messageType = "CONTROL_MESSAGE" ∧
      ctrlRecEmpty.logEvents = [] ∧
      handleCloudwatchLogsRecord ctrlHandlerEmpty [0] [] 0 = Except.ok [] :=
  ⟨rfl, rfl, rfl,
    handleCW_control_message_empty_events ctrlHandlerEmpty [0] [] 0 ctrlRecEmpty rfl rfl rfl⟩

/-- C9: for every successfully parsed CloudWatch envelope, the handler
emits exactly one entry per element of `logEvents`, in order, with the
line equal to that event's message — no hypothesis on `messageType` is
needed. -/
theorem handleCW_entry_per_event (h : Handler) (data : List Nat)
    (commonLabels : List Label) (now : Nat) (rec : CloudwatchLogsRecord) (es : List LokiEntry)
    (hparse : h.cwUnmarshal data = Except.ok rec)
    (hok : handleCloudwatchLogsRecord h data commonLabels now = Except.ok es) :
    es.length = rec.logEvents.length ∧
    ∀ (i : Nat) (hi : i < es.length) (hi2 : i < rec.logEvents.length),
      (es.get ⟨i, hi⟩).line = (rec.logEvents.get ⟨i, hi2⟩).message := by
  unfold handleCloudwatchLogsRecord at hok
  rw [hparse] at hok
  simp only [Except.ok.injEq] at hok
  subst hok
  refine ⟨List.length_map _ _, ?_⟩
  intro i hi hi2
  simp [List.get_eq_getElem]

/-- Witness for C9 at a concrete two-event envelope. -/
theorem handleCW_entry_per_event_witness :
    cwHandlerA.cwUnmarshal [0] = Except.ok cwRecA ∧
      handleCloudwatchLogsRecord cwHandlerA [0] [] 0 =
        Except.ok
          [{ labels := [], timestamp := 0, line := [104] },
           { labels := [], timestamp := 0, line := [105] }] ∧
      ([{ labels := [], timestamp := 0, line := [104] },
        { labels := [], timestamp := 0, line := [105] }] : List LokiEntry).length =
        cwRecA.logEvents.length :=
  ⟨rfl, rfl,
    (handleCW_entry_per_event cwHandlerA [0] [] 0 cwRecA
      [{ labels := [], timestamp := 0, line := [104] },
       { labels := [], timestamp := 0, line := [105] }] rfl rfl).1⟩

theorem processRecords_append_err (h : Handler) (rid : String) (common : List Label)
    (now : Nat) :
    ∀ (pre : List FirehoseRecord) (rec : FirehoseRecord) (rest : List FirehoseRecord)
      (o : RecordOrigin) (msg : String),
      (∀ r ∈ pre, recordSendsOK h common now r = true) →
      decodeRecord h.gzipDecode rec.data = DecodeResult.err o msg →
      processRecords h rid common now (pre ++ rec :: rest) =
        { sent := (processRecords h rid common now pre).sent
          response := some (sendAPIResponse rid "failed to decode record" 400 now) }
  | [], rec, rest, o, msg, _, hrec => by
      simp [processRecords, hrec]
  | r :: pre, rec, rest, o, msg, hpre, hrec => by
      have hr := hpre r (by simp)
      have ih := processRecords_append_err h rid common now pre rec rest o msg
        (fun x hx => hpre x (by simp [hx])) hrec
      unfold recordSendsOK at hr
      cases hdec : decodeRecord h.gzipDecode r.data with
      | panicked => rw [hdec] at hr; simp at hr
      | err o2 m2 => rw [hdec] at hr; simp at hr
      | ok bs origin =>
        rw [hdec] at hr
        cases origin with
        | directPut => simp [processRecords, hdec, ih]
        | unknown => simp [processRecords, hdec, ih]
        | cloudwatchLogs =>
          cases hcw : handleCloudwatchLogsRecord h bs (builderLabels common) now with
          | error e => simp [hcw] at hr
          | ok es => simp [processRecords, hdec, hcw, ih]

/-- C3 counterexample: in a batch whose second record fails to
base64-decode, a first record that base64-decodes to zero bytes makes
the handler panic at the magic-byte check, so no 400 response (no
response at all) is written. -/
theorem serveHTTP_abort_counterexample :
    decodeRecord plainHandler.gzipDecode "!" =
      DecodeResult.err RecordOrigin.unknown "error base64-decoding record" ∧
    ServeHTTP plainHandler panicThenBadReq 0 = { sent := [], response := none } :=
  ⟨rfl, rfl⟩

/-- C3 (amended): when every record before the failing one processes
successfully (in particular none of them trips the short-record
magic-check panic of C1), a record whose decode fails aborts the batch:
the response is the 400 JSON error referencing the batch's requestId,
and the entries forwarded are exactly those of the records before the
failing one — nothing from the failing record or any later record. -/
theorem serveHTTP_abort_on_decode_error (h : Handler) (req : HttpRequest) (now : Nat)
    (fr : FirehoseRequest) (pre : List FirehoseRecord) (rec : FirehoseRecord)
    (rest : List FirehoseRecord) (o : RecordOrigin) (msg : String)
    (hgz : req.contentEncoding = "gzip" → req.gzipBody = Except.ok ())
    (hbody : req.body = Except.ok fr)
    (hsplit : fr.records = pre ++ rec :: rest)
    (hpre : ∀ r ∈ pre, recordSendsOK h (commonLabelsOf req) now r = true)
    (hrec : decodeRecord h.gzipDecode rec.data = DecodeResult.err o msg) :
    ServeHTTP h req now =
      { sent := (processRecords h fr.requestId (commonLabelsOf req) now pre).sent
        response := some (sendAPIResponse fr.requestId "failed to decode record" 400 now) } := by
  have hmain := processRecords_append_err h fr.requestId (commonLabelsOf req) now pre rec rest
    o msg hpre hrec
  by_cases hce : req.contentEncoding = "gzip"
  · simp [ServeHTTP, serveAfterGzip, hce, hgz hce, hbody, hsplit, hmain]
  · simp [ServeHTTP, serveAfterGzip, hce, hbody, hsplit, hmain]

/-- Witness for the amended C3: one good direct-put record, then an
invalid-base64 record, then one more record that is never reached. -/
theorem serveHTTP_abort_on_decode_error_witness :
    (∀ r ∈ [(⟨"aGk="⟩ : FirehoseRecord)],
      recordSendsOK plainHandler
        (commonLabelsOf ⟨"", Except.ok (), Except.ok ⟨"req-9", 0, [⟨"aGk="⟩, ⟨"!"⟩, ⟨"aGk="⟩]⟩,
          "r1", "a1", ""⟩) 4 r = true) ∧
    ServeHTTP plainHandler
        ⟨"", Except.ok (), Except.ok ⟨"req-9", 0, [⟨"aGk="⟩, ⟨"!"⟩, ⟨"aGk="⟩]⟩, "r1", "a1", ""⟩ 4 =
      { sent :=
          (processRecords plainHandler "req-9"
            (commonLabelsOf ⟨"", Except.ok (), Except.ok ⟨"req-9", 0, [⟨"aGk="⟩, ⟨"!"⟩, ⟨"aGk="⟩]⟩,
              "r1", "a1", ""⟩) 4 [⟨"aGk="⟩]).sent
        response := some (sendAPIResponse "req-9" "failed to decode record" 400 4) } :=
  ⟨by decide,
    serveHTTP_abort_on_decode_error plainHandler
      ⟨"", Except.ok (), Except.ok ⟨"req-9", 0, [⟨"aGk="⟩, ⟨"!"⟩, ⟨"aGk="⟩]⟩, "r1", "a1", ""⟩ 4
      ⟨"req-9", 0, [⟨"aGk="⟩, ⟨"!"⟩, ⟨"aGk="⟩]⟩ [⟨"aGk="⟩] ⟨"!"⟩ [⟨"aGk="⟩]
      RecordOrigin.unknown "error base64-decoding record"
      (fun _ => rfl) rfl rfl (by decide) (by decide)⟩

/-- C10: the record loop passes the same common label set to every
record: a prefix of successfully processed records (cloudwatch ones
included, whose handler extends a fresh builder seeded from the common
labels) leaves the processing of the remaining records unchanged — the
batch result is the prefix's entries followed by the untouched result
of the rest, still computed from the same common labels. -/
theorem processRecords_common_frame (h : Handler) (rid : String) (common : List Label)
    (now : Nat) :
    ∀ (pre rest : List FirehoseRecord),
      (∀ r ∈ pre, recordSendsOK h common now r = true) →
      processRecords h rid common now (pre ++ rest) =
        { sent := (processRecords h rid common now pre).sent ++
            (processRecords h rid common now rest).sent
          response := (processRecords h rid common now rest).response }
  | [], rest, _ => by simp [processRecords]
  | r :: pre, rest, hpre => by
      have hr := hpre r (by simp)
      have ih := processRecords_common_frame h rid common now pre rest
        (fun x hx => hpre x (by simp [hx]))
      unfold recordSendsOK at hr
      cases hdec : decodeRecord h.gzipDecode r.data with
      | panicked => rw [hdec] at hr; simp at hr
      | err o2 m2 => rw [hdec] at hr; simp at hr
      | ok bs origin =>
        rw [hdec] at hr
        cases origin with
        | directPut => simp [processRecords, hdec, ih]
        | unknown => simp [processRecords, hdec, ih]
        | cloudwatchLogs =>
          cases hcw : handleCloudwatchLogsRecord h bs (builderLabels common) now with
          | error e => simp [hcw] at hr
          | ok es => simp [processRecords, hdec, hcw, ih]

/-- Witness for C10: a cloudwatch record processed first, then a
direct-put record processed with the same (empty) common labels. -/
theorem processRecords_common_frame_witness :
    (∀ r ∈ [(⟨"H4sI"⟩ : FirehoseRecord)], recordSendsOK cwHandlerA [] 0 r = true) ∧
    processRecords cwHandlerA "rid" [] 0 ([⟨"H4sI"⟩] ++ [⟨"aGk="⟩]) =
      { sent := (processRecords cwHandlerA "rid" [] 0 [⟨"H4sI"⟩]).sent ++
          (processRecords cwHandlerA "rid" [] 0 [⟨"aGk="⟩]).sent
        response := (processRecords cwHandlerA "rid" [] 0 [⟨"aGk="⟩]).response } :=
  ⟨by decide,
    processRecords_common_frame cwHandlerA "rid" [] 0 [⟨"H4sI"⟩] [⟨"aGk="⟩] (by decide)⟩

/-- C8: a well-formed batch envelope with an empty records list is
answered with the 200 success response echoing the envelope's
requestId, and nothing is forwarded downstream. -/
theorem serveHTTP_empty_records (h : Handler) (req : HttpRequest) (now : Nat)
    (fr : FirehoseRequest)
    (hgz : req.contentEncoding = "gzip" → req.gzipBody = Except.ok ())
    (hbody : req.body = Except.ok fr)
    (hrecs : fr.records = []) :
    ServeHTTP h req now =
      { sent := [], response := some (sendAPIResponse fr.requestId "" 200 now) } := by
  by_cases hce : req.contentEncoding = "gzip"
  · simp [ServeHTTP, serveAfterGzip, hce, hgz hce, hbody, hrecs, processRecords]
  · simp [ServeHTTP, serveAfterGzip, hce, hbody, hrecs, processRecords]

/-- Witness for C8 at a concrete zero-record batch. -/
theorem serveHTTP_empty_records_witness :
    emptyBatchReq.body = Except.ok ⟨"req-42", 99, []⟩ ∧
    ServeHTTP plainHandler emptyBatchReq 7 =
      { sent := [], response := some (sendAPIResponse "req-42" "" 200 7) } :=
  ⟨rfl, serveHTTP_empty_records plainHandler emptyBatchReq 7 ⟨"req-42", 99, []⟩
    (fun _ => rfl) rfl rfl⟩

theorem processRecords_response_shape (h : Handler) (rid : String) (common : List Label)
    (now : Nat) :
    ∀ (recs : List FirehoseRecord) (resp : HttpResponse),
      (processRecords h rid common now recs).response = some resp →
      ∃ errMsg status, resp = sendAPIResponse rid errMsg status now
  | [], resp, hresp => by
      simp [processRecords] at hresp
      exact ⟨"", 200, hresp.symm⟩
  | rec :: rest, resp, hresp => by
      cases hdec : decodeRecord h.gzipDecode rec.data with
      | panicked => simp [processRecords, hdec] at hresp
      | err o2 m2 =>
        simp [processRecords, hdec] at hresp
        exact ⟨"failed to decode record", 400, hresp.symm⟩
      | ok bs origin =>
        cases origin with
        | directPut =>
          simp [processRecords, hdec] at hresp
          exact processRecords_response_shape h rid common now rest resp hresp
        | unknown =>
          simp [processRecords, hdec] at hresp
          exact processRecords_response_shape h rid common now rest resp hresp
        | cloudwatchLogs =>
          cases hcw : handleCloudwatchLogsRecord h bs (builderLabels common) now with
          | error e =>
            simp [processRecords, hdec, hcw] at hresp
            exact ⟨"failed to handle cloudwatch record", 400, hresp.symm⟩
          | ok es =>
            simp [processRecords, hdec, hcw] at hresp
            exact processRecords_response_shape h rid common now rest resp hresp

/-- C4 counterexample: a request whose body fails to JSON-decode is
answered through `http.Error`: a 400 with a `text/plain` body that does
not carry the JSON acknowledgement shape, hence no requestId echo and
no `application/json` content type. -/
theorem serveHTTP_badjson_plaintext_counterexample :
    ServeHTTP plainHandler badJsonReq 0 =
      { sent := []
        response := some { status := 400, contentType := "text/plain; charset=utf-8",
                           body := "invalid character\n" } } ∧
    ("text/plain; charset=utf-8" : String) ≠ "application/json" :=
  ⟨rfl, by decide⟩

/-- C4 (amended): every response written after the batch envelope has
been successfully decoded is produced by `sendAPIResponse`, hence
carries `Content-Type: application/json` and a body echoing the
envelope's requestId; the two earlier failure paths (gzip reader
creation, envelope JSON decode) instead answer 400 in plain text
without a requestId, and the magic-check panic writes no response. -/
theorem serveHTTP_response_after_parse (h : Handler) (req : HttpRequest) (now : Nat)
    (fr : FirehoseRequest) (resp : HttpResponse)
    (hgz : req.contentEncoding = "gzip" → req.gzipBody = Except.ok ())
    (hbody : req.body = Except.ok fr)
    (hresp : (ServeHTTP h req now).response = some resp) :
    resp.contentType = "application/json" ∧
    ∃ errMsg status, resp = sendAPIResponse fr.requestId errMsg status now := by
  have hpr : (processRecords h fr.requestId (commonLabelsOf req) now fr.records).response
      = some resp := by
    by_cases hce : req.contentEncoding = "gzip"
    · simp only [ServeHTTP, hce, if_pos, hgz hce, serveAfterGzip, hbody] at hresp
      exact hresp
    · simp only [ServeHTTP, hce, if_neg, serveAfterGzip, hbody] at hresp
      exact hresp
  obtain ⟨e, s, hes⟩ := processRecords_response_shape h fr.requestId (commonLabelsOf req) now
    fr.records resp hpr
  subst hes
  exact ⟨rfl, e, s, rfl⟩

/-- Witness for the amended C4 at a concrete zero-record batch. -/
theorem serveHTTP_response_after_parse_witness :
    (ServeHTTP plainHandler emptyBatchReq 3).response = some (sendAPIResponse "req-42" "" 200 3) ∧
    ((sendAPIResponse "req-42" "" 200 3).contentType = "application/json" ∧
      ∃ errMsg status, sendAPIResponse "req-42" "" 200 3 = sendAPIResponse "req-42" errMsg status 3) :=
  ⟨rfl,
    serveHTTP_response_after_parse plainHandler emptyBatchReq 3 ⟨"req-42", 99, []⟩
      (sendAPIResponse "req-42" "" 200 3) (fun _ => rfl) rfl rfl⟩

/-- C6 counterexample: a direct-put record with line `hello world` and
non-empty request-id/source-ARN headers is forwarded with an empty
final label set — post-processing strips the internal-prefixed
request-id and source-ARN labels when no relabel rule rewrites them, so
the final label set does not include them. -/
theorem serveHTTP_direct_put_counterexample :
    ServeHTTP plainHandler helloReq 7 =
      { sent := [{ labels := [], timestamp := 7,
                   line := [104, 101, 108, 108, 111, 32, 119, 111, 114, 108, 100] }]
        response := some (sendAPIResponse "req-6" "" 200 7) } ∧
    ∀ e ∈ (ServeHTTP plainHandler helloReq 7).sent, ∀ l ∈ e.labels,
      l.name ≠ "__aws_firehose_request_id" ∧ l.name ≠ "__aws_firehose_source_arn" :=
  ⟨rfl, by decide⟩

/-- C6 (amended): for a single direct-put record, the forwarded entry's
line is the base64-decoded record bytes verbatim and its labels are the
post-processed image of the common labels, which going into
post-processing consist exactly of the firehose request-id and
source-ARN labels (headers non-empty, no tenant header) and contain no
CloudWatch-specific labels; post-processing then strips these
internal-prefixed labels unless relabeling rewrote them. -/
theorem serveHTTP_direct_put_entry (h : Handler) (req : HttpRequest) (now : Nat)
    (fr : FirehoseRequest) (rec : FirehoseRecord) (bs : List Nat)
    (hgz : req.contentEncoding = "gzip" → req.gzipBody = Except.ok ())
    (hbody : req.body = Except.ok fr)
    (hrecs : fr.records = [rec])
    (hdec : decodeRecord h.gzipDecode rec.data = DecodeResult.ok bs RecordOrigin.directPut)
    (hrid : req.requestIdHeader ≠ "") (harn : req.sourceArnHeader ≠ "")
    (hten : req.tenantHeader = "") :
    (ServeHTTP h req now).sent =
      [{ labels := postProcessLabels h (builderLabels (commonLabelsOf req))
         timestamp := now
         line := bs }] ∧
    Label.mk "__aws_firehose_request_id" req.requestIdHeader ∈ commonLabelsOf req ∧
    Label.mk "__aws_firehose_source_arn" req.sourceArnHeader ∈ commonLabelsOf req ∧
    ∀ l ∈ commonLabelsOf req,
      l.name = "__aws_firehose_request_id" ∨ l.name = "__aws_firehose_source_arn" := by
  have hcl : commonLabelsOf req =
      [⟨"__aws_firehose_request_id", req.requestIdHeader⟩,
       ⟨"__aws_firehose_source_arn", req.sourceArnHeader⟩] := by
    simp [commonLabelsOf, builderSet, hrid, harn, hten, List.filter]
  refine ⟨?_, ?_, ?_, ?_⟩
  · by_cases hce : req.contentEncoding = "gzip"
    · simp [ServeHTTP, serveAfterGzip, hce, hgz hce, hbody, hrecs, processRecords, hdec]
    · simp [ServeHTTP, serveAfterGzip, hce, hbody, hrecs, processRecords, hdec]
  · rw [hcl]; simp
  · rw [hcl]; simp
  · rw [hcl]
    intro l hl
    simp only [List.mem_cons, List.not_mem_nil, or_false] at hl
    rcases hl with hl | hl
    · subst hl; exact Or.inl rfl
    · subst hl; exact Or.inr rfl

/-- Witness for the amended C6 at the concrete `hello world` record. -/
theorem serveHTTP_direct_put_entry_witness :
    (ServeHTTP plainHandler helloReq 7).sent =
      [{ labels := postProcessLabels plainHandler (builderLabels (commonLabelsOf helloReq))
         timestamp := 7
         line := [104, 101, 108, 108, 111, 32, 119, 111, 114, 108, 100] }] ∧
    Label.mk "__aws_firehose_request_id" "r1" ∈ commonLabelsOf helloReq ∧
    Label.mk "__aws_firehose_source_arn" "a1" ∈ commonLabelsOf helloReq ∧
    ∀ l ∈ commonLabelsOf helloReq,
      l.name = "__aws_firehose_request_id" ∨ l.name = "__aws_firehose_source_arn" :=
  serveHTTP_direct_put_entry plainHandler helloReq 7 ⟨"req-6", 0, [⟨"aGVsbG8gd29ybGQ="⟩]⟩
    ⟨"aGVsbG8gd29ybGQ="⟩ [104, 101, 108, 108, 111, 32, 119, 111, 114, 108, 100]
    (fun _ => rfl) rfl rfl (by decide) (by decide) (by decide) rfl

end Firehose
